import Mathlib

/-
A verification development for `cvxpy/reductions/solvers/solving_chain.py`:
the solver-chain planner `construct_solving_chain` and the `SolvingChain`
pipeline object.

Shallow embedding notes.
* Solver names are strings; the registry data imported by the source
  (`INSTALLED_SOLVERS`, `QP_SOLVERS`, `CONIC_SOLVERS`, `SOLVER_MAP` with its
  per-solver `MIP_CAPABLE` and `SUPPORTED_CONSTRAINTS` attributes) and the
  atom classification tables (`SOC_ATOMS`, `EXP_ATOMS`, `PSD_ATOMS`,
  referenced but never defined in the source) are modelled as an explicit
  `Registry` record over which all theorems quantify.  Family preference is
  the position in the `QP_SOLVERS` / `CONIC_SOLVERS` lists, exactly as the
  source sorts by `QP_SOLVERS.index(s)` / `CONIC_SOLVERS.index(s)`.
* Atoms are represented by the name of their runtime class; the source only
  ever tests `type(atom) in SOC_ATOMS` (and EXP/PSD analogues).
* `type(problem.objective) == Maximize` is an exact-class equality test in
  Python: it is false for instances of strict subclasses of `Maximize`.
  The embedding records the runtime class of the objective as an `ObjClass`
  value, with a distinct constructor for strict subclasses of `Maximize`.
* The listing contains evident transcription slips that are repaired to
  their intent, each noted at the definition it affects:
  line 66 `sorted(candidate_qp_solvers, key s: QP_SOLVERS.index(s))` is not
  valid Python and is modelled as the stable sort by index with the first
  element taken (the sort is the identity on a sublist of `QP_SOLVERS`);
  line 69 `QpSolver(solver.name)` is modelled as the QP-solver terminal step
  for the chosen name; line 93 reads `s.SUPPORTED_CONSTRAINTS` where `s` is
  out of scope and is modelled as the supported-constraint set of the loop
  solver; line 106 reads `self.reductions` which is never assigned, and is
  modelled as the `reductions` argument; line 111 omits the `self`
  parameter, which is restored.
* Python exceptions become an explicit error type.  `reductions[-1]` on an
  empty list raises `IndexError` before the `isinstance` check can run;
  the embedding keeps the two failure modes distinct.
-/

set_option autoImplicit false

namespace CvxpyChain

/-- The cone constraint classes the planner can require: `SOC`, `ExpCone`,
`PSD` in the source imports. -/
inductive Cone where
  | SOC
  | ExpCone
  | PSD
deriving DecidableEq, Repr

/-- The runtime class of `problem.objective`.  `maximize` is exactly the
`Maximize` class; `maximizeSubclass` is any strict subclass of `Maximize`
(for which Python's `type(obj) == Maximize` is false); `minimize` is the
`Minimize` class; `otherClass` is any other type. -/
inductive ObjClass where
  | minimize
  | maximize
  | maximizeSubclass
  | otherClass
deriving DecidableEq, Repr

/-- A problem, exposing exactly the observations the planner makes of it. -/
structure Problem where
  is_dcp : Bool
  is_mip : Bool
  is_qp : Bool
  objClass : ObjClass
  atoms : List String
deriving DecidableEq, Repr

/-- The solver registry and atom classification tables consumed by the
planner.  `QP_SOLVERS` and `CONIC_SOLVERS` are in family preference order
(lower index = higher preference), as the source sorts candidates by their
index in these lists. -/
structure Registry where
  INSTALLED_SOLVERS : List String
  QP_SOLVERS : List String
  CONIC_SOLVERS : List String
  MIP_CAPABLE : String → Bool
  SUPPORTED_CONSTRAINTS : String → List Cone
  SOC_ATOMS : List String
  EXP_ATOMS : List String
  PSD_ATOMS : List String

/-- A reduction step of a chain.  The two final constructors are terminal
solver steps (instances of `Solver` in the source); the others are plain
reductions. -/
inductive Step where
  | FlipObjective
  | Qp2SymbolicQp
  | QpMatrixStuffing
  | Dcp2Cone
  | ConeMatrixStuffing
  | QpSolverStep (name : String)
  | ConicSolverStep (name : String)
deriving DecidableEq, Repr

/-- `isinstance(step, Solver)`: is this step a terminal solver step? -/
def Step.isSolver : Step → Bool
  | Step.QpSolverStep _ => true
  | Step.ConicSolverStep _ => true
  | _ => false

/-- The failures the code can raise, distinguished by exception class and
message.  `dcpError` is the `DCPError`; `solverNotInstalled`,
`noMipCapable`, `noConicSolvers` and `unsupportedCones` are the four
`SolverError` messages, carrying the data each message formats;
`indexError` is the `IndexError` raised by `reductions[-1]` on an empty
list; `invalidChain` is the `ValueError` "Solving chains must terminate
with a Solver." -/
inductive Err where
  | solverNotInstalled (name : String)
  | dcpError
  | noMipCapable (candidates : List String)
  | noConicSolvers (candidates : List String)
  | unsupportedCones (candidates : List String) (cones : List Cone)
  | indexError
  | invalidChain
deriving DecidableEq, Repr

/-- A successfully constructed solving chain: the full reduction list plus
the derived fields `problem_reductions = reductions[:-1]` and
`solver = reductions[-1]` that `SolvingChain.__init__` stores. -/
structure SolvingChain where
  reductions : List Step
  problem_reductions : List Step
  solver : Step
deriving DecidableEq, Repr

/-- `SolvingChain.__init__` (src lines 105-109, with the evidently missing
`self.reductions = reductions` assignment restored): indexing
`reductions[-1]` on an empty list raises `IndexError`; otherwise, if the
last element is not a `Solver`, it raises the `ValueError` (modelled as
`invalidChain`); otherwise the chain is built. -/
def mkSolvingChain (reductions : List Step) : Except Err SolvingChain :=
  match reductions.getLast? with
  | none => Except.error Err.indexError
  | some last =>
      if last.isSolver then
        Except.ok ⟨reductions, reductions.dropLast, last⟩
      else
        Except.error Err.invalidChain

/-- Src lines 39-44: resolve the candidate set.  A requested solver must be
installed (else `SolverError`, modelled as `solverNotInstalled`); with no
request the candidates are all installed solvers. -/
def resolveCandidates (R : Registry) (solver : Option String) :
    Except Err (List String) :=
  match solver with
  | some s =>
      if s ∈ R.INSTALLED_SOLVERS then Except.ok [s]
      else Except.error (Err.solverNotInstalled s)
  | none => Except.ok R.INSTALLED_SOLVERS

/-- Src lines 52-57: for a mixed-integer problem, narrow candidates to the
MIP-capable ones; if that empties them, raise `SolverError` reporting the
(already-narrowed, hence empty) candidate list. -/
def narrowMip (R : Registry) (p : Problem) (candidates : List String) :
    Except Err (List String) :=
  if p.is_mip then
    let narrowed := candidates.filter (fun s => R.MIP_CAPABLE s)
    if narrowed.isEmpty then Except.error (Err.noMipCapable narrowed)
    else Except.ok narrowed
  else Except.ok candidates

/-- Src lines 80-89: the required-cone computation.  Walks the atom list and
appends `SOC`, then `ExpCone`, then `PSD`, each exactly when some atom's
runtime class is in the corresponding classification table. -/
def requiredCones (R : Registry) (atoms : List String) : List Cone :=
  (if atoms.any (fun a => decide (a ∈ R.SOC_ATOMS)) then [Cone.SOC] else []) ++
    (if atoms.any (fun a => decide (a ∈ R.EXP_ATOMS)) then [Cone.ExpCone] else []) ++
      (if atoms.any (fun a => decide (a ∈ R.PSD_ATOMS)) then [Cone.PSD] else [])

/-- Src lines 60-62: the initial reduction list.  The objective-flip step is
present exactly when the runtime class of the objective is exactly
`Maximize` (line 61, `type(problem.objective) == Maximize`, an exact-class
equality that is false for strict subclasses). -/
def flipPrefix (p : Problem) : List Step :=
  if p.objClass = ObjClass.maximize then [Step.FlipObjective] else []

/-- Src lines 60-98: the pipeline choice once candidates are resolved and
narrowed.  Starts from `flipPrefix`.  If some QP-family candidate exists
and the problem is a QP, the first (highest-preference) QP candidate is
committed to (lines 64-70; `candidate_qp_solvers` is filtered from
`QP_SOLVERS` so it is already in preference order and the source's sort by
`QP_SOLVERS.index` is the identity on it).  Otherwise the conic candidates
are scanned in `CONIC_SOLVERS` preference order for the first whose
supported constraints contain every required cone (lines 72-98). -/
def choosePipeline (R : Registry) (p : Problem) (candidates : List String) :
    Except Err SolvingChain :=
  let reductions := flipPrefix p
  let candidate_qp_solvers :=
    R.QP_SOLVERS.filter (fun s => decide (s ∈ candidates))
  match candidate_qp_solvers, p.is_qp with
  | chosen :: _, true =>
      mkSolvingChain (reductions ++
        [Step.Qp2SymbolicQp, Step.QpMatrixStuffing, Step.QpSolverStep chosen])
  | _, _ =>
      let candidate_conic_solvers :=
        R.CONIC_SOLVERS.filter (fun s => decide (s ∈ candidates))
      if candidate_conic_solvers.isEmpty then
        Except.error (Err.noConicSolvers candidates)
      else
        let cones := requiredCones R p.atoms
        match candidate_conic_solvers.find?
            (fun s => cones.all (fun c => decide (c ∈ R.SUPPORTED_CONSTRAINTS s))) with
        | some chosen =>
            mkSolvingChain (reductions ++
              [Step.Dcp2Cone, Step.ConeMatrixStuffing, Step.ConicSolverStep chosen])
        | none =>
            Except.error (Err.unsupportedCones candidate_conic_solvers cones)

/-- `construct_solving_chain` (src lines 14-98): resolve candidates; check
DCP (lines 50-51, raising `DCPError` when the problem is not DCP); narrow
for mixed-integer problems; then choose a pipeline. -/
def construct_solving_chain (R : Registry) (p : Problem)
    (solver : Option String) : Except Err SolvingChain :=
  match resolveCandidates R solver with
  | Except.error e => Except.error e
  | Except.ok candidates =>
      if !p.is_dcp then Except.error Err.dcpError
      else
        match narrowMip R p candidates with
        | Except.error e => Except.error e
        | Except.ok narrowed => choosePipeline R p narrowed

/-! ### Chain execution semantics

`SolvingChain` inherits `apply` and `invert` from the class `Chain` of
`cvxpy.reductions`, whose code is not under src/.  They are modelled from
the spec, abstractly in the per-step forward transform `fwd`, backward
transform `bwd`, and the terminal solver's native `solve_via_data`. -/

section ChainSem

variable {St Ctx Sol Opts : Type}

/-- Modelled from the spec: `Chain.apply` (the class `Chain` of
`cvxpy.reductions` is missing from src/) "runs every reduction's forward
transform in sequence accumulating inverse contexts". -/
def chainApply (fwd : Step → St → St × Ctx) : List Step → St → St × List Ctx
  | [], st => (st, [])
  | r :: rs, st =>
      let fst := fwd r st
      let rest := chainApply fwd rs fst.1
      (rest.1, fst.2 :: rest.2)

/-- Modelled from the spec: `Chain.invert` (the class `Chain` of
`cvxpy.reductions` is missing from src/) "runs every inverse transform in
reverse order": contexts pair up positionally with the steps, and the last
step's inverse is applied first, the first step's inverse last. -/
def chainInvert (bwd : Step → Sol → Ctx → Sol) :
    List Step → List Ctx → Sol → Sol
  | [], _, sol => sol
  | _ :: _, [], sol => sol
  | r :: rs, c :: cs, sol => bwd r (chainInvert bwd rs cs sol) c

/-- The chain's forward pass `SolvingChain.apply`: the inherited
`Chain.apply` over the chain's full reduction list. -/
def SolvingChain.applyAll (fwd : Step → St → St × Ctx)
    (chain : SolvingChain) (problem : St) : St × List Ctx :=
  chainApply fwd chain.reductions problem

/-- `SolvingChain.solve` (src lines 111-115, with the evidently missing
`self` parameter restored): `data, inverse_data = self.apply(problem)`,
then `solution = self.solver.solve_via_data(data, warm_start, verbose,
solver_opts)`, then `return self.invert(solution, inverse_data)`. -/
def SolvingChain.solve (fwd : Step → St → St × Ctx)
    (bwd : Step → Sol → Ctx → Sol)
    (solve_via_data : Step → St → Bool → Bool → Opts → Sol)
    (chain : SolvingChain) (problem : St) (warm_start verbose : Bool)
    (solver_opts : Opts) : Sol :=
  let applied := SolvingChain.applyAll fwd chain problem
  let solution :=
    solve_via_data chain.solver applied.1 warm_start verbose solver_opts
  chainInvert bwd chain.reductions applied.2 solution

end ChainSem

/-! ### Concrete fixtures for witnesses -/

/-- A small synthetic registry: two installed QP solvers (`QPB` preferred
over `QPA`; `QPX` is known but not installed), two installed conic solvers
(`CO1` preferred over `CO2`; only `CO2` supports any cones), one
MIP-capable solver. -/
def regA : Registry :=
  ⟨["QPA", "QPB", "CO1", "CO2"], ["QPB", "QPA", "QPX"], ["CO1", "CO2"],
    fun s => decide (s = "QPA"),
    fun s => if s = "CO2" then [Cone.SOC, Cone.ExpCone, Cone.PSD] else [],
    ["norm2"], ["logsumexp"], ["lambdamax"]⟩

/-- A DCP, continuous, quadratic problem maximizing its objective. -/
def probQpMax : Problem := ⟨true, false, true, ObjClass.maximize, []⟩

/-- A non-DCP, mixed-integer problem. -/
def probNonDcp : Problem := ⟨false, true, true, ObjClass.maximize, ["norm2"]⟩

/-- A DCP, continuous, non-quadratic minimization problem with one
second-order-cone-inducing atom. -/
def probConic : Problem := ⟨true, false, false, ObjClass.minimize, ["norm2"]⟩

/-- A DCP, mixed-integer, quadratic minimization problem. -/
def probMip : Problem := ⟨true, true, true, ObjClass.minimize, []⟩

/-- A DCP quadratic problem whose objective is an instance of a strict
subclass of `Maximize`. -/
def probSub : Problem := ⟨true, false, true, ObjClass.maximizeSubclass, []⟩

/-! ### Helper lemmas -/

lemma mkSolvingChain_concat (pre : List Step) (s : Step) (hs : s.isSolver = true) :
    mkSolvingChain (pre ++ [s]) = Except.ok ⟨pre ++ [s], pre, s⟩ := by
  simp [mkSolvingChain, List.getLast?_concat, hs, List.dropLast_concat]

lemma mkSolvingChain_three (pre : List Step) (a b s : Step)
    (hs : s.isSolver = true) :
    mkSolvingChain (pre ++ [a, b, s]) =
      Except.ok ⟨pre ++ [a, b, s], pre ++ [a, b], s⟩ := by
  have hsplit : pre ++ [a, b, s] = (pre ++ [a, b]) ++ [s] := by simp
  rw [hsplit, mkSolvingChain_concat _ _ hs]

lemma find?_decomp {α : Type} (p : α → Bool) :
    ∀ (l : List α) (x : α), l.find? p = some x →
      ∃ l1 l2, l = l1 ++ x :: l2 ∧ (∀ y ∈ l1, p y = false) ∧ p x = true := by
  intro l
  induction l with
  | nil => intro x h; simp at h
  | cons a t ih =>
      intro x h
      by_cases hpa : p a = true
      · rw [List.find?_cons_of_pos _ hpa] at h
        cases h
        exact ⟨[], t, by simp, by simp, hpa⟩
      · rw [List.find?_cons_of_neg _ hpa] at h
        obtain ⟨l1, l2, hl, h1, hx⟩ := ih x h
        refine ⟨a :: l1, l2, by simp [hl], ?_, hx⟩
        intro y hy
        rcases List.mem_cons.mp hy with hya | hyl
        · subst hya; exact Bool.eq_false_iff.mpr hpa
        · exact h1 y hyl

lemma filter_cons_find? {α : Type} (p : α → Bool) :
    ∀ (l : List α) (x : α) (xs : List α),
      l.filter p = x :: xs → l.find? p = some x := by
  intro l
  induction l with
  | nil => intro x xs h; simp at h
  | cons a t ih =>
      intro x xs h
      by_cases hpa : p a = true
      · rw [List.filter_cons_of_pos hpa] at h
        cases h
        rw [List.find?_cons_of_pos _ hpa]
      · rw [List.filter_cons_of_neg hpa] at h
        rw [List.find?_cons_of_neg _ hpa]
        exact ih x xs h

lemma construct_eq_choosePipeline {R : Registry} {p : Problem}
    {solverOpt : Option String} {cs cands : List String}
    (hres : resolveCandidates R solverOpt = Except.ok cs)
    (hdcp : p.is_dcp = true)
    (hnar : narrowMip R p cs = Except.ok cands) :
    construct_solving_chain R p solverOpt = choosePipeline R p cands := by
  unfold construct_solving_chain
  rw [hres]
  simp [hdcp, hnar]

/-- Structure of any successfully planned chain: a flip prefix exactly for
an exact-`Maximize` objective, then either the QP tail or the conic tail,
with the terminal solver drawn from the candidate set. -/
lemma choosePipeline_ok_shape {R : Registry} {p : Problem}
    {cands : List String} {chain : SolvingChain}
    (h : choosePipeline R p cands = Except.ok chain) :
    ∃ nm tail,
      chain.reductions = flipPrefix p ++ tail ∧
      ((tail = [Step.Qp2SymbolicQp, Step.QpMatrixStuffing, Step.QpSolverStep nm] ∧
          chain.solver = Step.QpSolverStep nm) ∨
        (tail = [Step.Dcp2Cone, Step.ConeMatrixStuffing, Step.ConicSolverStep nm] ∧
          chain.solver = Step.ConicSolverStep nm)) ∧
      nm ∈ cands := by
  simp only [choosePipeline] at h
  split at h
  · rename_i chosen rest hfil hqp
    rw [mkSolvingChain_three (flipPrefix p) Step.Qp2SymbolicQp
      Step.QpMatrixStuffing (Step.QpSolverStep chosen) rfl] at h
    cases h
    refine ⟨chosen, _, rfl, Or.inl ⟨rfl, rfl⟩, ?_⟩
    have hc : chosen ∈ R.QP_SOLVERS.filter (fun s => decide (s ∈ cands)) := by
      rw [hfil]; exact List.mem_cons_self _ _
    simpa using (List.mem_filter.mp hc).2
  · split at h
    · exact absurd h (by simp)
    · split at h
      · rename_i chosen hfind
        rw [mkSolvingChain_three (flipPrefix p) Step.Dcp2Cone
          Step.ConeMatrixStuffing (Step.ConicSolverStep chosen) rfl] at h
        cases h
        refine ⟨chosen, _, rfl, Or.inr ⟨rfl, rfl⟩, ?_⟩
        have hmem := List.mem_of_find?_eq_some hfind
        simpa using (List.mem_filter.mp hmem).2
      · exact absurd h (by simp)

/-- Any successful plan passes through candidate resolution, the DCP gate,
the MIP narrowing, and the pipeline choice, in that order; for a
mixed-integer problem the candidate set handed to the pipeline choice is
the MIP-capable filter of the resolved one. -/
lemma construct_ok_cases {R : Registry} {p : Problem}
    {solverOpt : Option String} {chain : SolvingChain}
    (h : construct_solving_chain R p solverOpt = Except.ok chain) :
    ∃ cs cands, resolveCandidates R solverOpt = Except.ok cs ∧
      p.is_dcp = true ∧ narrowMip R p cs = Except.ok cands ∧
      choosePipeline R p cands = Except.ok chain ∧
      (p.is_mip = true → cands = cs.filter (fun s => R.MIP_CAPABLE s)) := by
  unfold construct_solving_chain at h
  split at h
  · exact absurd h (by simp)
  · rename_i cs hres
    split at h
    · exact absurd h (by simp)
    · rename_i hdcp
      have hdcp2 : p.is_dcp = true := by
        cases hd : p.is_dcp with
        | false => exact absurd (by simp [hd]) hdcp
        | true => rfl
      split at h
      · exact absurd h (by simp)
      · rename_i cands hnar
        refine ⟨cs, cands, hres, hdcp2, hnar, h, ?_⟩
        intro hmip
        unfold narrowMip at hnar
        rw [hmip] at hnar
        simp only [if_true] at hnar
        split at hnar
        · exact absurd hnar (by simp)
        · exact (Except.ok.injEq .. ▸ hnar).symm

/-! ### Claim theorems -/

/-- C1: for a DCP, quadratic-shaped problem whose (resolved and
MIP-narrowed) candidate set contains at least one QP-family solver, the
planner returns the chain `flipPrefix ++ [Qp2SymbolicQp, QpMatrixStuffing,
QpSolverStep chosen]` whose terminal step is the QP solver of highest
family preference (earliest in `QP_SOLVERS`) among the candidates — never
a conic solver step. -/
theorem c1_qp_path_top_preference (R : Registry) (p : Problem)
    (solverOpt : Option String) (cs cands : List String)
    (chosen : String) (rest : List String)
    (hres : resolveCandidates R solverOpt = Except.ok cs)
    (hdcp : p.is_dcp = true)
    (hnar : narrowMip R p cs = Except.ok cands)
    (hqp : p.is_qp = true)
    (hfil : R.QP_SOLVERS.filter (fun s => decide (s ∈ cands)) = chosen :: rest) :
    construct_solving_chain R p solverOpt =
      Except.ok
        ⟨flipPrefix p ++
            [Step.Qp2SymbolicQp, Step.QpMatrixStuffing, Step.QpSolverStep chosen],
          flipPrefix p ++ [Step.Qp2SymbolicQp, Step.QpMatrixStuffing],
          Step.QpSolverStep chosen⟩ ∧
      chosen ∈ R.QP_SOLVERS ∧ chosen ∈ cands ∧
      (∀ nm, Step.QpSolverStep chosen ≠ Step.ConicSolverStep nm) ∧
      ∃ l1 l2, R.QP_SOLVERS = l1 ++ chosen :: l2 ∧ ∀ y ∈ l1, y ∉ cands := by
  have hc : chosen ∈ R.QP_SOLVERS.filter (fun s => decide (s ∈ cands)) := by
    rw [hfil]; exact List.mem_cons_self _ _
  refine ⟨?_, (List.mem_filter.mp hc).1, by simpa using (List.mem_filter.mp hc).2,
    fun nm => by simp, ?_⟩
  · rw [construct_eq_choosePipeline hres hdcp hnar]
    simp only [choosePipeline]
    rw [hfil, hqp]
    exact mkSolvingChain_three (flipPrefix p) Step.Qp2SymbolicQp
      Step.QpMatrixStuffing (Step.QpSolverStep chosen) rfl
  · obtain ⟨l1, l2, hsplit, hfalse, _⟩ :=
      find?_decomp _ R.QP_SOLVERS chosen (filter_cons_find? _ _ _ _ hfil)
    exact ⟨l1, l2, hsplit, fun y hy => by simpa using hfalse y hy⟩

/-- C1 witness: with `regA` and the maximizing QP problem, the planner
commits to the QP pipeline terminated by `QPB`, the preferred installed QP
solver. -/
theorem c1_witness :
    construct_solving_chain regA probQpMax none =
      Except.ok
        ⟨[Step.FlipObjective, Step.Qp2SymbolicQp, Step.QpMatrixStuffing,
            Step.QpSolverStep "QPB"],
          [Step.FlipObjective, Step.Qp2SymbolicQp, Step.QpMatrixStuffing],
          Step.QpSolverStep "QPB"⟩ := by
  simpa using
    (c1_qp_path_top_preference regA probQpMax none regA.INSTALLED_SOLVERS
      regA.INSTALLED_SOLVERS "QPB" ["QPA"] rfl rfl rfl rfl (by decide)).1

/-- C2: on the conic path (QP path not taken, some conic candidate, and a
candidate covering the required cones exists), the planner returns the
conic chain terminated by the first conic candidate, in family preference
order, whose supported constraints contain every required cone; all
candidates preferred to it miss some required cone, and if the required
cone list is empty the chosen solver is simply the first conic candidate. -/
theorem c2_conic_first_superset (R : Registry) (p : Problem)
    (solverOpt : Option String) (cs cands : List String) (chosen : String)
    (hres : resolveCandidates R solverOpt = Except.ok cs)
    (hdcp : p.is_dcp = true)
    (hnar : narrowMip R p cs = Except.ok cands)
    (hqpno : R.QP_SOLVERS.filter (fun s => decide (s ∈ cands)) = [] ∨
      p.is_qp = false)
    (hfind : (R.CONIC_SOLVERS.filter (fun s => decide (s ∈ cands))).find?
        (fun s => (requiredCones R p.atoms).all
          (fun c => decide (c ∈ R.SUPPORTED_CONSTRAINTS s))) = some chosen) :
    construct_solving_chain R p solverOpt =
      Except.ok
        ⟨flipPrefix p ++
            [Step.Dcp2Cone, Step.ConeMatrixStuffing, Step.ConicSolverStep chosen],
          flipPrefix p ++ [Step.Dcp2Cone, Step.ConeMatrixStuffing],
          Step.ConicSolverStep chosen⟩ ∧
      (∀ c ∈ requiredCones R p.atoms, c ∈ R.SUPPORTED_CONSTRAINTS chosen) ∧
      (∃ l1 l2, R.CONIC_SOLVERS.filter (fun s => decide (s ∈ cands)) =
          l1 ++ chosen :: l2 ∧
        ∀ y ∈ l1, ∃ c ∈ requiredCones R p.atoms,
          c ∉ R.SUPPORTED_CONSTRAINTS y) ∧
      (requiredCones R p.atoms = [] →
        (R.CONIC_SOLVERS.filter (fun s => decide (s ∈ cands))).head? =
          some chosen) := by
  obtain ⟨l1, l2, hsplit, hfalse, htrue⟩ := find?_decomp _ _ _ hfind
  have hchain : construct_solving_chain R p solverOpt =
      Except.ok
        ⟨flipPrefix p ++
            [Step.Dcp2Cone, Step.ConeMatrixStuffing, Step.ConicSolverStep chosen],
          flipPrefix p ++ [Step.Dcp2Cone, Step.ConeMatrixStuffing],
          Step.ConicSolverStep chosen⟩ := by
    rw [construct_eq_choosePipeline hres hdcp hnar]
    simp only [choosePipeline]
    split
    · rename_i chosen2 rest hfil hqp
      rcases hqpno with hq | hq
      · rw [hq] at hfil; exact absurd hfil (by simp)
      · rw [hq] at hqp; exact absurd hqp (by simp)
    · have hne : (R.CONIC_SOLVERS.filter
          (fun s => decide (s ∈ cands))).isEmpty = false := by
        rw [hsplit]; simp
      rw [hne]
      simp only [Bool.false_eq_true, if_false]
      rw [hfind]
      exact mkSolvingChain_three (flipPrefix p) Step.Dcp2Cone
        Step.ConeMatrixStuffing (Step.ConicSolverStep chosen) rfl
  refine ⟨hchain, ?_, ⟨l1, l2, hsplit, ?_⟩, ?_⟩
  · intro c hcone
    have := List.all_eq_true.mp htrue c hcone
    simpa using this
  · intro y hy
    have := hfalse y hy
    rcases List.all_eq_false.mp this with ⟨c, hc, hcy⟩
    exact ⟨c, hc, by simpa using hcy⟩
  · intro hcones
    cases l1 with
    | nil => rw [hsplit]; rfl
    | cons a l1t =>
        have := hfalse a (List.mem_cons_self _ _)
        rw [hcones] at this
        simp at this

/-- C2 witness: `probConic` requires the second-order cone; `CO1` is
preferred but supports no cones, so the planner selects `CO2`. -/
theorem c2_witness :
    construct_solving_chain regA probConic none =
      Except.ok
        ⟨[Step.Dcp2Cone, Step.ConeMatrixStuffing, Step.ConicSolverStep "CO2"],
          [Step.Dcp2Cone, Step.ConeMatrixStuffing],
          Step.ConicSolverStep "CO2"⟩ := by
  simpa using
    (c2_conic_first_superset regA probConic none regA.INSTALLED_SOLVERS
      regA.INSTALLED_SOLVERS "CO2" rfl rfl rfl (Or.inr rfl) (by decide)).1

/-- C3: a problem failing the DCP check makes planning fail with the
`DCPError`, for every candidate set — also when a specific (installed)
solver was requested.  (A requested solver that is not installed instead
fails earlier with `solverNotInstalled`; that precedence is claim C4.) -/
theorem c3_non_dcp_fails_dcp_error (R : Registry) (p : Problem)
    (solverOpt : Option String)
    (hres : ∀ s, solverOpt = some s → s ∈ R.INSTALLED_SOLVERS)
    (hdcp : p.is_dcp = false) :
    construct_solving_chain R p solverOpt = Except.error Err.dcpError := by
  unfold construct_solving_chain
  cases solverOpt with
  | none => simp [resolveCandidates, hdcp]
  | some s =>
      have hs := hres s rfl
      simp [resolveCandidates, hs, hdcp]

/-- C3 witness: the non-DCP mixed-integer problem fails with the DCP error
even under a requested installed solver. -/
theorem c3_witness :
    construct_solving_chain regA probNonDcp (some "CO1") =
      Except.error Err.dcpError := by
  exact c3_non_dcp_fails_dcp_error regA probNonDcp (some "CO1")
    (by intro s hs; cases hs; decide) rfl

/-- C4: requesting a solver that is not installed fails with the
`solverNotInstalled` error for every problem — the check precedes all
others, so it fires even for non-DCP problems. -/
theorem c4_unavailable_solver_first (R : Registry) (p : Problem) (s : String)
    (hnot : s ∉ R.INSTALLED_SOLVERS) :
    construct_solving_chain R p (some s) =
      Except.error (Err.solverNotInstalled s) := by
  unfold construct_solving_chain
  simp [resolveCandidates, hnot]

/-- C4 witness: requesting the uninstalled `ZZZ` on a non-DCP problem
reports the unavailable solver, not the DCP failure. -/
theorem c4_witness :
    construct_solving_chain regA probNonDcp (some "ZZZ") =
      Except.error (Err.solverNotInstalled "ZZZ") := by
  exact c4_unavailable_solver_first regA probNonDcp "ZZZ" (by decide)

/-- C5: for a mixed-integer problem the candidates are narrowed to the
MIP-capable ones before any pipeline choice: if the narrowing empties the
set, planning fails (after the DCP gate) with the `noMipCapable` error
reporting the already-narrowed (hence empty) candidate list; and any chain
the planner returns terminates in a MIP-capable solver. -/
theorem c5_mip_narrowing (R : Registry) (p : Problem)
    (solverOpt : Option String) (cs : List String)
    (hres : resolveCandidates R solverOpt = Except.ok cs)
    (hmip : p.is_mip = true) :
    (p.is_dcp = true →
      (cs.filter (fun s => R.MIP_CAPABLE s)).isEmpty = true →
      construct_solving_chain R p solverOpt =
        Except.error (Err.noMipCapable (cs.filter (fun s => R.MIP_CAPABLE s)))) ∧
    (∀ chain, construct_solving_chain R p solverOpt = Except.ok chain →
      ∃ nm, (chain.solver = Step.QpSolverStep nm ∨
          chain.solver = Step.ConicSolverStep nm) ∧
        R.MIP_CAPABLE nm = true) := by
  constructor
  · intro hdcp hempty
    unfold construct_solving_chain
    rw [hres]
    simp only [hdcp, Bool.not_true, Bool.false_eq_true, if_false]
    unfold narrowMip
    rw [hmip]
    simp [hempty]
  · intro chain hok
    obtain ⟨cs2, cands, hres2, _, _, hchoose, hcands⟩ := construct_ok_cases hok
    have hcs : cs2 = cs := by
      rw [hres] at hres2
      exact (Except.ok.injEq .. ▸ hres2).symm
    obtain ⟨nm, tail, _, hdisj, hmem⟩ := choosePipeline_ok_shape hchoose
    refine ⟨nm, ?_, ?_⟩
    · rcases hdisj with ⟨_, hs⟩ | ⟨_, hs⟩
      · exact Or.inl hs
      · exact Or.inr hs
    · have : nm ∈ cs.filter (fun s => R.MIP_CAPABLE s) := by
        rw [← hcs, ← hcands hmip]; exact hmem
      exact (List.mem_filter.mp this).2

/-- C5 witness: requesting installed conic solver `CO1` (not MIP-capable)
for the mixed-integer problem fails with the `noMipCapable` error carrying
the narrowed (empty) candidate list; unrestricted planning of the same
problem terminates in the MIP-capable `QPA`. -/
theorem c5_witness :
    construct_solving_chain regA probMip (some "CO1") =
      Except.error (Err.noMipCapable []) ∧
    ∃ nm,
      ((⟨[Step.Qp2SymbolicQp, Step.QpMatrixStuffing, Step.QpSolverStep "QPA"],
          [Step.Qp2SymbolicQp, Step.QpMatrixStuffing],
          Step.QpSolverStep "QPA"⟩ : SolvingChain).solver =
            Step.QpSolverStep nm ∨
        (⟨[Step.Qp2SymbolicQp, Step.QpMatrixStuffing, Step.QpSolverStep "QPA"],
          [Step.Qp2SymbolicQp, Step.QpMatrixStuffing],
          Step.QpSolverStep "QPA"⟩ : SolvingChain).solver =
            Step.ConicSolverStep nm) ∧
      regA.MIP_CAPABLE nm = true := by
  constructor
  · simpa using
      (c5_mip_narrowing regA probMip (some "CO1") ["CO1"] rfl rfl).1 rfl rfl
  · exact (c5_mip_narrowing regA probMip none regA.INSTALLED_SOLVERS rfl rfl).2
      _ rfl

/-- C6: whenever the objective is a `Maximize` (exact class), any chain the
planner returns starts with the objective-flip step, on both pipelines;
for a `Minimize` objective no flip step occurs anywhere in the chain. -/
theorem c6_flip_first_step (R : Registry) (p : Problem)
    (solverOpt : Option String) :
    (p.objClass = ObjClass.maximize →
      ∀ chain, construct_solving_chain R p solverOpt = Except.ok chain →
        chain.reductions.head? = some Step.FlipObjective) ∧
    (p.objClass = ObjClass.minimize →
      ∀ chain, construct_solving_chain R p solverOpt = Except.ok chain →
        Step.FlipObjective ∉ chain.reductions) := by
  constructor
  · intro hmax chain hok
    obtain ⟨_, _, _, _, _, hchoose, _⟩ := construct_ok_cases hok
    obtain ⟨nm, tail, hred, _, _⟩ := choosePipeline_ok_shape hchoose
    rw [hred]
    simp [flipPrefix, hmax]
  · intro hmin chain hok
    obtain ⟨_, _, _, _, _, hchoose, _⟩ := construct_ok_cases hok
    obtain ⟨nm, tail, hred, hdisj, _⟩ := choosePipeline_ok_shape hchoose
    rw [hred]
    have hpre : flipPrefix p = [] := by simp [flipPrefix, hmin]
    rw [hpre, List.nil_append]
    rcases hdisj with ⟨ht, _⟩ | ⟨ht, _⟩ <;> rw [ht] <;> simp

/-- C6 witness: the maximizing QP problem's chain starts with the flip
step; the minimizing conic problem's chain contains no flip step. -/
theorem c6_witness :
    ([Step.FlipObjective, Step.Qp2SymbolicQp, Step.QpMatrixStuffing,
        Step.QpSolverStep "QPB"] : List Step).head? =
      some Step.FlipObjective ∧
    Step.FlipObjective ∉
      ([Step.Dcp2Cone, Step.ConeMatrixStuffing, Step.ConicSolverStep "CO2"] :
        List Step) := by
  constructor
  · exact (c6_flip_first_step regA probQpMax none).1 rfl
      ⟨[Step.FlipObjective, Step.Qp2SymbolicQp, Step.QpMatrixStuffing,
          Step.QpSolverStep "QPB"],
        [Step.FlipObjective, Step.Qp2SymbolicQp, Step.QpMatrixStuffing],
        Step.QpSolverStep "QPB"⟩ rfl
  · exact (c6_flip_first_step regA probConic none).2 rfl
      ⟨[Step.Dcp2Cone, Step.ConeMatrixStuffing, Step.ConicSolverStep "CO2"],
        [Step.Dcp2Cone, Step.ConeMatrixStuffing],
        Step.ConicSolverStep "CO2"⟩ rfl

/-- C7 counterexample: constructing a `SolvingChain` from an empty step
sequence fails with the index error raised by `reductions[-1]`, which is a
different failure from the `invalidChain` (`ValueError`) the claim names. -/
theorem c7_counterexample :
    mkSolvingChain [] = Except.error Err.indexError ∧
      Err.indexError ≠ Err.invalidChain := by
  exact ⟨rfl, by decide⟩

/-- C7 (amended): an empty step sequence fails with the index error; a
non-empty sequence whose last element is not a terminal solver step fails
with `invalidChain`; every successfully constructed chain stores a
non-empty step list whose last element is a terminal solver step. -/
theorem c7_terminal_invariant :
    mkSolvingChain [] = Except.error Err.indexError ∧
    (∀ steps last, steps.getLast? = some last → last.isSolver = false →
      mkSolvingChain steps = Except.error Err.invalidChain) ∧
    (∀ steps chain, mkSolvingChain steps = Except.ok chain →
      chain.reductions = steps ∧ steps ≠ [] ∧
      ∃ last, steps.getLast? = some last ∧ last.isSolver = true ∧
        chain.solver = last) := by
  refine ⟨rfl, ?_, ?_⟩
  · intro steps last hlast hnot
    unfold mkSolvingChain
    rw [hlast]
    simp [hnot]
  · intro steps chain hok
    unfold mkSolvingChain at hok
    split at hok
    · exact absurd hok (by simp)
    · rename_i last hlast
      split at hok
      · rename_i hsolver
        cases hok
        refine ⟨rfl, ?_, last, hlast, hsolver, rfl⟩
        intro hnil
        rw [hnil] at hlast
        exact absurd hlast (by simp)
      · exact absurd hok (by simp)

/-- C7 witness: a non-solver-terminated sequence yields `invalidChain`, and
a solver-terminated singleton constructs successfully and is non-empty. -/
theorem c7_witness :
    mkSolvingChain [Step.FlipObjective] = Except.error Err.invalidChain ∧
    ([Step.QpSolverStep "QPA"] : List Step) ≠ [] := by
  constructor
  · exact c7_terminal_invariant.2.1 [Step.FlipObjective] Step.FlipObjective
      rfl rfl
  · exact (c7_terminal_invariant.2.2 [Step.QpSolverStep "QPA"]
      ⟨[Step.QpSolverStep "QPA"], [], Step.QpSolverStep "QPA"⟩ rfl).2.1

/-- C8: for every chain, `solve` is the composition of the forward pass
`apply`, the terminal solver's native `solve_via_data` on the resulting
backend data, and `invert` on the raw solution with the accumulated
inverse contexts; `invert` runs the inverse transforms in reverse order
and `apply` accumulates contexts in forward order (spelt out on a
three-step chain).  Read right-to-left, the first equation is the
round-trip: `invert` of the solver output of the chain's own `apply`
output is the direct `solve`. -/
theorem c8_solve_invert_apply_round_trip {St Ctx Sol Opts : Type}
    (fwd : Step → St → St × Ctx) (bwd : Step → Sol → Ctx → Sol)
    (solve_via_data : Step → St → Bool → Bool → Opts → Sol)
    (chain : SolvingChain) (problem : St) (warm_start verbose : Bool)
    (solver_opts : Opts) :
    SolvingChain.solve fwd bwd solve_via_data chain problem warm_start
        verbose solver_opts =
      chainInvert bwd chain.reductions
        (SolvingChain.applyAll fwd chain problem).2
        (solve_via_data chain.solver
          (SolvingChain.applyAll fwd chain problem).1
          warm_start verbose solver_opts) ∧
    (∀ r1 r2 r3 c1 c2 c3 sol,
      chainInvert bwd [r1, r2, r3] [c1, c2, c3] sol =
        bwd r1 (bwd r2 (bwd r3 sol c3) c2) c1) ∧
    (∀ r1 r2 r3 s0,
      chainApply fwd [r1, r2, r3] s0 =
        ((fwd r3 (fwd r2 (fwd r1 s0).1).1).1,
          [(fwd r1 s0).2, (fwd r2 (fwd r1 s0).1).2,
            (fwd r3 (fwd r2 (fwd r1 s0).1).1).2])) := by
  exact ⟨rfl, fun r1 r2 r3 c1 c2 c3 sol => rfl, fun r1 r2 r3 s0 => rfl⟩

/-- C9: the required-cone computation contains `SOC` iff some atom's class
is in the SOC-inducing table, `ExpCone` iff some atom's class is in the
EXP-inducing table, `PSD` iff some atom's class is in the PSD-inducing
table, and contains nothing besides these three cone kinds. -/
theorem c9_required_cone_membership (R : Registry) (atoms : List String) :
    (Cone.SOC ∈ requiredCones R atoms ↔ ∃ a ∈ atoms, a ∈ R.SOC_ATOMS) ∧
    (Cone.ExpCone ∈ requiredCones R atoms ↔ ∃ a ∈ atoms, a ∈ R.EXP_ATOMS) ∧
    (Cone.PSD ∈ requiredCones R atoms ↔ ∃ a ∈ atoms, a ∈ R.PSD_ATOMS) ∧
    (∀ c ∈ requiredCones R atoms,
      c = Cone.SOC ∨ c = Cone.ExpCone ∨ c = Cone.PSD) := by
  have hchar : ∀ c, c ∈ requiredCones R atoms ↔
      (c = Cone.SOC ∧ atoms.any (fun a => decide (a ∈ R.SOC_ATOMS)) = true) ∨
      (c = Cone.ExpCone ∧ atoms.any (fun a => decide (a ∈ R.EXP_ATOMS)) = true) ∨
      (c = Cone.PSD ∧ atoms.any (fun a => decide (a ∈ R.PSD_ATOMS)) = true) := by
    intro c
    unfold requiredCones
    by_cases h1 : atoms.any (fun a => decide (a ∈ R.SOC_ATOMS)) = true <;>
      by_cases h2 : atoms.any (fun a => decide (a ∈ R.EXP_ATOMS)) = true <;>
        by_cases h3 : atoms.any (fun a => decide (a ∈ R.PSD_ATOMS)) = true <;>
          simp [h1, h2, h3]
  refine ⟨?_, ?_, ?_, ?_⟩
  · rw [hchar]; simp [List.any_eq_true]
  · rw [hchar]; simp [List.any_eq_true]
  · rw [hchar]; simp [List.any_eq_true]
  · intro c hc
    rcases (hchar c).mp hc with ⟨h, _⟩ | ⟨h, _⟩ | ⟨h, _⟩
    · exact Or.inl h
    · exact Or.inr (Or.inl h)
    · exact Or.inr (Or.inr h)

/-- C9 witness: with the `regA` tables, an atom list holding the
SOC-inducing `norm2` requires the second-order cone and not the
exponential cone. -/
theorem c9_witness :
    Cone.SOC ∈ requiredCones regA ["norm2", "plus"] ∧
    Cone.ExpCone ∉ requiredCones regA ["norm2", "plus"] := by
  constructor
  · exact (c9_required_cone_membership regA ["norm2", "plus"]).1.mpr
      ⟨"norm2", by decide, by decide⟩
  · intro h
    have hx := (c9_required_cone_membership regA ["norm2", "plus"]).2.1.mp h
    exact absurd hx (by decide)

/-- C10: the flip step is present in a planned chain exactly when the
runtime class of the objective is exactly `Maximize`; in particular an
objective whose type is a strict subclass of `Maximize` gets no flip step
even though it represents a maximization. -/
theorem c10_flip_iff_exact_maximize (R : Registry) (p : Problem)
    (solverOpt : Option String) (chain : SolvingChain)
    (hok : construct_solving_chain R p solverOpt = Except.ok chain) :
    (Step.FlipObjective ∈ chain.reductions ↔
      p.objClass = ObjClass.maximize) ∧
    (p.objClass = ObjClass.maximizeSubclass →
      Step.FlipObjective ∉ chain.reductions) := by
  obtain ⟨_, _, _, _, _, hchoose, _⟩ := construct_ok_cases hok
  obtain ⟨nm, tail, hred, hdisj, _⟩ := choosePipeline_ok_shape hchoose
  have htail : Step.FlipObjective ∉ tail := by
    rcases hdisj with ⟨ht, _⟩ | ⟨ht, _⟩ <;> rw [ht] <;> simp
  have hiff : Step.FlipObjective ∈ chain.reductions ↔
      p.objClass = ObjClass.maximize := by
    rw [hred, List.mem_append]
    by_cases hm : p.objClass = ObjClass.maximize
    · simp [flipPrefix, hm]
    · simp [flipPrefix, hm, htail]
  refine ⟨hiff, ?_⟩
  intro hsub hmem
  have := hiff.mp hmem
  rw [hsub] at this
  exact absurd this (by decide)

/-- C10 witness: the planner maps `probSub` (objective of a strict subclass
of `Maximize`) to a chain without the flip step. -/
theorem c10_witness :
    Step.FlipObjective ∉
      ([Step.Qp2SymbolicQp, Step.QpMatrixStuffing, Step.QpSolverStep "QPB"] :
        List Step) := by
  exact (c10_flip_iff_exact_maximize regA probSub none
    ⟨[Step.Qp2SymbolicQp, Step.QpMatrixStuffing, Step.QpSolverStep "QPB"],
      [Step.Qp2SymbolicQp, Step.QpMatrixStuffing],
      Step.QpSolverStep "QPB"⟩ rfl).2 rfl

end CvxpyChain
